import Mathlib

/-!
Verification of the autoredL turret control core against its specification.

The Python sources are shallowly embedded: each controller object becomes a
Lean structure, each method a pure function from (inputs, state) to
(result, state).  The wall clock (`time.time()`) is passed explicitly as a
rational-number parameter; GPIO output is modelled as a boolean field of the
controller state.
-/

namespace AutoRedL

/-! ## Laser controller (src/laser/laser_controller.py) -/

/-- State of `LaserController`: the Python object's fields, with the GPIO
level on `enable_pin` modelled as the boolean `output_high`. -/
structure LaserController where
  safety_timeout : ℚ
  is_on : Bool
  is_initialized : Bool
  last_on_time : ℚ
  output_high : Bool
deriving Repr, DecidableEq

/-- `LaserController.__init__` followed by a successful `initialize()`:
output driven low, watchdog started, `is_initialized` set. -/
def LaserController.init (safety_timeout : ℚ) : LaserController :=
  { safety_timeout := safety_timeout
    is_on := false
    is_initialized := true
    last_on_time := 0
    output_high := false }

/-- `LaserController.turn_on` at wall-clock time `t`: returns `False` when
uninitialized; otherwise, when off, drives the output high, sets `is_on`
and records `last_on_time = now`; returns `True`. -/
def LaserController.turn_on (t : ℚ) (c : LaserController) : Bool × LaserController :=
  if !c.is_initialized then (false, c)
  else if !c.is_on then
    (true, { c with output_high := true, is_on := true, last_on_time := t })
  else (true, c)

/-- `LaserController.turn_off`: returns `False` when uninitialized;
otherwise, when on, drives the output low and clears `is_on`; returns
`True`. -/
def LaserController.turn_off (c : LaserController) : Bool × LaserController :=
  if !c.is_initialized then (false, c)
  else if c.is_on then
    (true, { c with output_high := false, is_on := false })
  else (true, c)

/-- `LaserController.emergency_stop`: unconditionally drives the output low
and clears `is_on`. -/
def LaserController.emergency_stop (c : LaserController) : LaserController :=
  { c with output_high := false, is_on := false }

/-- One iteration of the `safety_monitor` watchdog loop body at wall-clock
time `t`: if the laser is on and has been on longer than `safety_timeout`,
force the output low and clear `is_on`. -/
def LaserController.safety_tick (t : ℚ) (c : LaserController) : LaserController :=
  if c.is_on ∧ t - c.last_on_time > c.safety_timeout then
    { c with output_high := false, is_on := false }
  else c

/-- Events that can act on an initialized `LaserController`: the public
calls `turn_on`/`turn_off` and a watchdog tick, each stamped with the
wall-clock time at which it runs. -/
inductive LaserEvent where
  | turnOn
  | turnOff
  | tick
deriving Repr, DecidableEq

/-- Apply one timed event to a pair of (controller state, time of the most
recent watchdog tick). -/
def laserEvStep (te : ℚ × LaserEvent) (p : LaserController × ℚ) :
    LaserController × ℚ :=
  match te.2 with
  | .turnOn => ((LaserController.turn_on te.1 p.1).2, p.2)
  | .turnOff => ((LaserController.turn_off p.1).2, p.2)
  | .tick => (LaserController.safety_tick te.1 p.1, te.1)

/-- Run a timed event trace from an initial (state, last-tick-time) pair. -/
def laserRun (p : LaserController × ℚ) : List (ℚ × LaserEvent) → LaserController × ℚ
  | [] => p
  | te :: tr => laserRun (laserEvStep te p) tr

/-- Event times are nondecreasing and bounded below by `prev`. -/
def timesMono (prev : ℚ) : List (ℚ × LaserEvent) → Bool
  | [] => true
  | (t, _) :: tr => decide (prev ≤ t) && timesMono t tr

lemma laserRun_cons (te : ℚ × LaserEvent) (p : LaserController × ℚ)
    (tr : List (ℚ × LaserEvent)) :
    laserRun p (te :: tr) = laserRun (laserEvStep te p) tr := rfl

/-- Inductive watchdog invariant: along any time-monotone event trace, at the
moment of the most recent watchdog tick the laser had not yet been on longer
than `safety_timeout` (otherwise that tick would have switched it off), and
`safety_timeout` never changes. -/
lemma laserRun_inv (tr : List (ℚ × LaserEvent)) (c : LaserController) (ltick t0 : ℚ)
    (hmono : timesMono t0 tr = true) (hlt : ltick ≤ t0) (hto : 0 ≤ c.safety_timeout)
    (hinv : c.is_on = true → ltick - c.last_on_time ≤ c.safety_timeout) :
    (laserRun (c, ltick) tr).1.safety_timeout = c.safety_timeout ∧
    ((laserRun (c, ltick) tr).1.is_on = true →
      (laserRun (c, ltick) tr).2 - (laserRun (c, ltick) tr).1.last_on_time ≤
        c.safety_timeout) := by
  induction tr generalizing c ltick t0 with
  | nil => exact ⟨rfl, hinv⟩
  | cons te tr ih =>
    obtain ⟨t, e⟩ := te
    simp only [timesMono, Bool.and_eq_true, decide_eq_true_eq] at hmono
    obtain ⟨ht0, hmono'⟩ := hmono
    have hltt : ltick ≤ t := le_trans hlt ht0
    cases e with
    | turnOn =>
      rw [laserRun_cons]
      simp only [laserEvStep]
      cases hI : c.is_initialized with
      | false =>
        have hc : (LaserController.turn_on t c).2 = c := by
          simp [LaserController.turn_on, hI]
        rw [hc]
        exact ih c ltick t hmono' hltt hto hinv
      | true =>
        cases hO : c.is_on with
        | false =>
          have hc : (LaserController.turn_on t c).2 =
              { c with output_high := true, is_on := true, last_on_time := t } := by
            simp [LaserController.turn_on, hI, hO]
          rw [hc]
          exact ih _ ltick t hmono' hltt hto
            (fun _ => le_trans (sub_nonpos.mpr hltt) hto)
        | true =>
          have hc : (LaserController.turn_on t c).2 = c := by
            simp [LaserController.turn_on, hI, hO]
          rw [hc]
          exact ih c ltick t hmono' hltt hto hinv
    | turnOff =>
      rw [laserRun_cons]
      simp only [laserEvStep]
      cases hI : c.is_initialized with
      | false =>
        have hc : (LaserController.turn_off c).2 = c := by
          simp [LaserController.turn_off, hI]
        rw [hc]
        exact ih c ltick t hmono' hltt hto hinv
      | true =>
        cases hO : c.is_on with
        | false =>
          have hc : (LaserController.turn_off c).2 = c := by
            simp [LaserController.turn_off, hI, hO]
          rw [hc]
          exact ih c ltick t hmono' hltt hto hinv
        | true =>
          have hc : (LaserController.turn_off c).2 =
              { c with output_high := false, is_on := false } := by
            simp [LaserController.turn_off, hI, hO]
          rw [hc]
          exact ih _ ltick t hmono' hltt hto (fun h => by simp at h)
    | tick =>
      rw [laserRun_cons]
      simp only [laserEvStep]
      by_cases hcond : c.is_on = true ∧ t - c.last_on_time > c.safety_timeout
      · have hc : LaserController.safety_tick t c =
            { c with output_high := false, is_on := false } := by
          simp only [LaserController.safety_tick]
          rw [if_pos hcond]
        rw [hc]
        exact ih _ t t hmono' le_rfl hto (fun h => by simp at h)
      · have hc : LaserController.safety_tick t c = c := by
          simp only [LaserController.safety_tick]
          rw [if_neg hcond]
        rw [hc]
        refine ih c t t hmono' le_rfl hto ?_
        intro hOn
        have hng : ¬ t - c.last_on_time > c.safety_timeout := fun hgt => hcond ⟨hOn, hgt⟩
        linarith [not_lt.mp hng]

/-- C1: Emitter safety invariant.  Along any time-monotone trace of
`turn_on`/`turn_off` calls interleaved with watchdog ticks on an initialized
`LaserController` with nonnegative `safety_timeout`, at any instant `now`
that is at most one watchdog period (0.1 s) after the most recent tick,
`is_on = true` implies `now - last_on_time ≤ safety_timeout + 0.1`.
Moreover any watchdog tick observing `is_on = true` with
`now - last_on_time > safety_timeout` drives the output low and clears
`is_on`, with no `turn_off` call involved. -/
theorem laser_safety_invariant (timeout t0 now : ℚ) (tr : List (ℚ × LaserEvent))
    (hto : 0 ≤ timeout) (hmono : timesMono t0 tr = true)
    (hnow : now ≤ (laserRun (LaserController.init timeout, t0) tr).2 + 1/10) :
    ((laserRun (LaserController.init timeout, t0) tr).1.is_on = true →
      now - (laserRun (LaserController.init timeout, t0) tr).1.last_on_time ≤
        timeout + 1/10)
    ∧ (∀ (t : ℚ) (c : LaserController), c.is_on = true →
        c.safety_timeout < t - c.last_on_time →
        (LaserController.safety_tick t c).is_on = false ∧
        (LaserController.safety_tick t c).output_high = false) := by
  constructor
  · intro hOn
    have h := laserRun_inv tr (LaserController.init timeout) t0 t0 hmono le_rfl hto
      (by intro h; simp [LaserController.init] at h)
    have h2 := h.2 hOn
    have hts : (LaserController.init timeout).safety_timeout = timeout := rfl
    rw [hts] at h2
    linarith
  · intro t c hOn hgt
    have hc : LaserController.safety_tick t c =
        { c with output_high := false, is_on := false } := by
      simp only [LaserController.safety_tick]
      rw [if_pos ⟨hOn, hgt⟩]
    rw [hc]
    exact ⟨rfl, rfl⟩

/-- Witness for C1 at a concrete trace: turn on at t=1, watchdog tick at
t=2 with timeout 5, observed at now=2.1. -/
theorem laser_safety_invariant_witness :
    (21/10 : ℚ) -
      (laserRun (LaserController.init 5, 0)
        [(1, LaserEvent.turnOn), (2, LaserEvent.tick)]).1.last_on_time ≤
      5 + 1/10 :=
  (laser_safety_invariant 5 0 (21/10) [(1, .turnOn), (2, .tick)]
    (by norm_num)
    (by simp +decide [timesMono])
    (by norm_num [laserRun, laserEvStep, LaserController.turn_on,
      LaserController.safety_tick, LaserController.init])).1
    (by norm_num [laserRun, laserEvStep, LaserController.turn_on,
      LaserController.safety_tick, LaserController.init])

/-- C2: on an initialized controller, `turn_on` with `is_on` already true is
a no-op returning `True` (state, including `last_on_time` and the output,
unchanged); with `is_on` false it drives the output high, sets `is_on` and
records `last_on_time = now`, returning `True`. -/
theorem turn_on_noop_when_on (c : LaserController) (t : ℚ)
    (hinit : c.is_initialized = true) :
    (c.is_on = true → LaserController.turn_on t c = (true, c)) ∧
    (c.is_on = false →
      LaserController.turn_on t c =
        (true, { c with output_high := true, is_on := true, last_on_time := t })) := by
  constructor
  · intro hOn
    simp [LaserController.turn_on, hinit, hOn]
  · intro hOff
    simp [LaserController.turn_on, hinit, hOff]

/-- Witness for C2 at a concrete on-state controller. -/
theorem turn_on_noop_when_on_witness :
    LaserController.turn_on 7
        { safety_timeout := 5, is_on := true, is_initialized := true,
          last_on_time := 3, output_high := true } =
      (true, { safety_timeout := 5, is_on := true, is_initialized := true,
               last_on_time := 3, output_high := true }) :=
  (turn_on_noop_when_on
    { safety_timeout := 5, is_on := true, is_initialized := true,
      last_on_time := 3, output_high := true } 7 rfl).1 rfl

/-- C9: on an uninitialized controller `turn_on` and `turn_off` return
`False` and leave the state unchanged, while `emergency_stop` is
unconditional: for every state it drives the output low and clears `is_on`
(touching nothing else) and never fails. -/
theorem uninitialized_refused_estop_unconditional (c : LaserController) (t : ℚ) :
    (c.is_initialized = false →
      LaserController.turn_on t c = (false, c) ∧
      LaserController.turn_off c = (false, c)) ∧
    ((LaserController.emergency_stop c).output_high = false ∧
     (LaserController.emergency_stop c).is_on = false ∧
     (LaserController.emergency_stop c).safety_timeout = c.safety_timeout ∧
     (LaserController.emergency_stop c).is_initialized = c.is_initialized ∧
     (LaserController.emergency_stop c).last_on_time = c.last_on_time) := by
  refine ⟨fun hI => ⟨?_, ?_⟩, ?_⟩
  · simp [LaserController.turn_on, hI]
  · simp [LaserController.turn_off, hI]
  · simp [LaserController.emergency_stop]

/-- Witness for C9 at a concrete uninitialized on-state controller. -/
theorem uninitialized_refused_estop_unconditional_witness :
    LaserController.turn_on 2
        { safety_timeout := 5, is_on := true, is_initialized := false,
          last_on_time := 1, output_high := true } =
      (false, { safety_timeout := 5, is_on := true, is_initialized := false,
                last_on_time := 1, output_high := true }) :=
  ((uninitialized_refused_estop_unconditional
    { safety_timeout := 5, is_on := true, is_initialized := false,
      last_on_time := 1, output_high := true } 2).1 rfl).1

/-! ## Servo controller (src/servo/servo_controller.py) -/

/-- State of `PIDController`: gains, output clamp, and the mutable fields
`last_error`, `integral`, `last_time`. -/
structure PIDController where
  kp : ℚ
  ki : ℚ
  kd : ℚ
  max_output : ℚ
  last_error : ℚ
  integral : ℚ
  last_time : ℚ
deriving Repr, DecidableEq

/-- `PIDController.update(error)` at wall-clock time `t`: returns the
control output together with the updated state.  When `dt ≤ 0` it returns
`0.0` with the state untouched; otherwise it accumulates the integral,
computes the clamped PID sum, and records `last_error` and `last_time`. -/
def PIDController.update (t : ℚ) (error : ℚ) (s : PIDController) :
    ℚ × PIDController :=
  let dt := t - s.last_time
  if dt ≤ 0 then (0, s)
  else
    let proportional := s.kp * error
    let integral2 := s.integral + error * dt
    let integralTerm := s.ki * integral2
    let derivative := s.kd * (error - s.last_error) / dt
    let output := proportional + integralTerm + derivative
    let clamped := max (-s.max_output) (min s.max_output output)
    (clamped, { s with integral := integral2, last_error := error, last_time := t })

/-- The target/limit fields of `ServoController` touched by
`set_target_position` and `set_limits`. -/
structure ServoController where
  current_pan : ℚ
  current_tilt : ℚ
  target_pan : ℚ
  target_tilt : ℚ
  pan_min : ℚ
  pan_max : ℚ
  tilt_min : ℚ
  tilt_max : ℚ
deriving Repr, DecidableEq

/-- `ServoController.set_target_position(pan, tilt)`: clamp each axis to its
configured limits and store. -/
def ServoController.set_target_position (s : ServoController) (pan tilt : ℚ) :
    ServoController :=
  { s with target_pan := max s.pan_min (min s.pan_max pan),
           target_tilt := max s.tilt_min (min s.tilt_max tilt) }

/-- C3: `PIDController.update` contract.  With `dt ≤ 0` it returns `0.0`
and leaves `integral`, `last_error` and `last_time` unchanged; with
`dt > 0` it adds `error*dt` to the integral and returns
`kp*error + ki*integral + kd*(error - last_error)/dt` clamped to
`[-max_output, max_output]`, recording `last_error = error` and
`last_time = t`. -/
theorem pid_update_contract (s : PIDController) (t error : ℚ) :
    (t - s.last_time ≤ 0 → PIDController.update t error s = (0, s)) ∧
    (0 < t - s.last_time →
      PIDController.update t error s =
        (max (-s.max_output) (min s.max_output
            (s.kp * error + s.ki * (s.integral + error * (t - s.last_time)) +
              s.kd * (error - s.last_error) / (t - s.last_time))),
          { s with integral := s.integral + error * (t - s.last_time),
                   last_error := error, last_time := t })) := by
  constructor
  · intro hle
    simp only [PIDController.update]
    rw [if_pos hle]
  · intro hgt
    simp only [PIDController.update]
    rw [if_neg (not_le.mpr hgt)]

/-- Witness for C3: both branches at concrete states.  The `dt > 0` branch
with `kp=1, ki=1, kd=1, max_output=100, integral=2, last_error=1,
last_time=3`, called at `t=5` with `error=4`: `dt=2`, integral becomes
`2+4*2=10`, output `1*4 + 1*10 + 1*(4-1)/2 = 15.5`, unclamped. -/
theorem pid_update_contract_witness :
    PIDController.update 5 4
        { kp := 1, ki := 1, kd := 1, max_output := 100,
          last_error := 1, integral := 2, last_time := 3 } =
      (31/2, { kp := 1, ki := 1, kd := 1, max_output := 100,
               last_error := 4, integral := 10, last_time := 5 }) := by
  have h := (pid_update_contract
    { kp := 1, ki := 1, kd := 1, max_output := 100,
      last_error := 1, integral := 2, last_time := 3 } 5 4).2 (by norm_num)
  rw [h]
  norm_num

/-- C4: `set_target_position` always stores a clamped target inside the
configured box (when the limits are ordered), leaves in-range inputs
unchanged, and is idempotent in its arguments. -/
theorem set_target_position_clamps (s : ServoController) (pan tilt : ℚ)
    (hp : s.pan_min ≤ s.pan_max) (ht : s.tilt_min ≤ s.tilt_max) :
    (s.pan_min ≤ (s.set_target_position pan tilt).target_pan ∧
     (s.set_target_position pan tilt).target_pan ≤ s.pan_max ∧
     s.tilt_min ≤ (s.set_target_position pan tilt).target_tilt ∧
     (s.set_target_position pan tilt).target_tilt ≤ s.tilt_max) ∧
    (s.pan_min ≤ pan → pan ≤ s.pan_max → s.tilt_min ≤ tilt → tilt ≤ s.tilt_max →
      (s.set_target_position pan tilt).target_pan = pan ∧
      (s.set_target_position pan tilt).target_tilt = tilt) ∧
    (s.set_target_position pan tilt).set_target_position pan tilt =
      s.set_target_position pan tilt := by
  refine ⟨⟨?_, ?_, ?_, ?_⟩, fun h1 h2 h3 h4 => ⟨?_, ?_⟩, ?_⟩
  · exact le_max_left _ _
  · exact max_le hp (min_le_left _ _)
  · exact le_max_left _ _
  · exact max_le ht (min_le_left _ _)
  · simp [ServoController.set_target_position, min_eq_right h2, max_eq_right h1]
  · simp [ServoController.set_target_position, min_eq_right h4, max_eq_right h3]
  · simp [ServoController.set_target_position]

/-- Witness for C4 at the default limits with an out-of-range input:
`set_target_position(120, -60)` stores a target inside the box. -/
theorem set_target_position_clamps_witness :
    (-90 : ℚ) ≤ (ServoController.set_target_position
        { current_pan := 0, current_tilt := 0, target_pan := 0, target_tilt := 0, pan_min := -90, pan_max := 90,
          tilt_min := -45, tilt_max := 45 } 120 (-60)).target_pan ∧
    (ServoController.set_target_position
        { current_pan := 0, current_tilt := 0, target_pan := 0, target_tilt := 0, pan_min := -90, pan_max := 90,
          tilt_min := -45, tilt_max := 45 } 120 (-60)).target_pan ≤ 90 ∧
    (-45 : ℚ) ≤ (ServoController.set_target_position
        { current_pan := 0, current_tilt := 0, target_pan := 0, target_tilt := 0, pan_min := -90, pan_max := 90,
          tilt_min := -45, tilt_max := 45 } 120 (-60)).target_tilt ∧
    (ServoController.set_target_position
        { current_pan := 0, current_tilt := 0, target_pan := 0, target_tilt := 0, pan_min := -90, pan_max := 90,
          tilt_min := -45, tilt_max := 45 } 120 (-60)).target_tilt ≤ 45 :=
  (set_target_position_clamps
    { current_pan := 0, current_tilt := 0, target_pan := 0, target_tilt := 0, pan_min := -90, pan_max := 90,
      tilt_min := -45, tilt_max := 45 } 120 (-60)
    (by norm_num) (by norm_num)).1

/-! ## Detections (src/detection/human_detector.py) and target tracker
(src/tracking/target_tracker.py) -/

/-- A detection bounding box. -/
structure BoundingBox where
  x : ℚ
  y : ℚ
  width : ℚ
  height : ℚ
  confidence : ℚ
  class_id : ℤ
deriving Repr, DecidableEq

/-- `BoundingBox.center`. -/
def BoundingBox.center (b : BoundingBox) : ℚ × ℚ :=
  (b.x + b.width / 2, b.y + b.height / 2)

/-- `BoundingBox.area`. -/
def BoundingBox.area (b : BoundingBox) : ℚ :=
  b.width * b.height

/-- State of `TargetTracker`.  Frame dimensions are integers (the Python
constructor computes the centers with integer floor division `//`). -/
structure TargetTracker where
  frame_width : ℤ
  frame_height : ℤ
  frame_center_x : ℤ
  frame_center_y : ℤ
  current_target : Option BoundingBox
  target_lost_time : ℚ
  max_lost_time : ℚ
  position_history : List (ℚ × ℚ)
  history_size : ℕ
  deadzone_x : ℚ
  deadzone_y : ℚ
deriving Repr, DecidableEq

/-- `TargetTracker.__init__(frame_width, frame_height)`. -/
def TargetTracker.init (frame_width frame_height : ℤ) : TargetTracker :=
  { frame_width := frame_width
    frame_height := frame_height
    frame_center_x := Int.fdiv frame_width 2
    frame_center_y := Int.fdiv frame_height 2
    current_target := none
    target_lost_time := 0
    max_lost_time := 2
    position_history := []
    history_size := 5
    deadzone_x := 20
    deadzone_y := 20 }

/-- Python `max(d :: ds, key=f)`: scan left to right, replacing the current
best only on a strictly greater key, so the first element attaining the
maximum wins. -/
def pyMaxBy {α β : Type*} [LinearOrder β] (f : α → β) (d : α) (ds : List α) : α :=
  ds.foldl (fun best e => if f best < f e then e else best) d

/-- Python `min(d :: ds, key=f)`: scan left to right, replacing the current
best only on a strictly smaller key, so the first element attaining the
minimum wins. -/
def pyMinBy {α β : Type*} [LinearOrder β] (f : α → β) (d : α) (ds : List α) : α :=
  ds.foldl (fun best e => if f e < f best then e else best) d

/-- Squared Euclidean distance of two points.  `TargetTracker.distance` in
the source returns the square root of this; `√` is strictly monotone on
nonnegative inputs, so `min` keyed by the distance selects the same element
as `min` keyed by its square (`IsFirstMinBy_sqrt` below makes this
formal). -/
def distanceSq (pos1 pos2 : ℚ × ℚ) : ℚ :=
  (pos1.1 - pos2.1) ^ 2 + (pos1.2 - pos2.2) ^ 2

/-- `TargetTracker.add_to_history`: append, then evict the oldest entry if
the buffer exceeds `history_size`. -/
def addToHistory (hist : List (ℚ × ℚ)) (size : ℕ) (pos : ℚ × ℚ) : List (ℚ × ℚ) :=
  let h := hist ++ [pos]
  if size < h.length then h.tail else h

/-- `TargetTracker.update_target(detections)` at wall-clock time `t`:
returns the updated tracker and the returned `Option` track. -/
def TargetTracker.update_target (tk : TargetTracker) (t : ℚ)
    (detections : List BoundingBox) : TargetTracker × Option BoundingBox :=
  match detections with
  | [] =>
    match tk.current_target with
    | none => (tk, none)
    | some _ =>
      if tk.target_lost_time = 0 then
        ({ tk with target_lost_time := t }, tk.current_target)
      else if t - tk.target_lost_time > tk.max_lost_time then
        ({ tk with current_target := none, target_lost_time := 0,
                   position_history := [] }, none)
      else (tk, tk.current_target)
  | d :: ds =>
    let chosen :=
      match tk.current_target with
      | none => pyMaxBy BoundingBox.area d ds
      | some cur => pyMinBy (fun e => distanceSq e.center cur.center) d ds
    let tk2 :=
      { tk with target_lost_time := 0, current_target := some chosen,
                position_history :=
                  addToHistory tk.position_history tk.history_size chosen.center }
    (tk2, some chosen)

/-- `TargetTracker.get_smoothed_position`: frame center when the history is
empty, the single entry when it has one element, else the coordinate-wise
mean. -/
def TargetTracker.get_smoothed_position (tk : TargetTracker) : ℚ × ℚ :=
  match tk.position_history with
  | [] => ((tk.frame_center_x : ℚ), (tk.frame_center_y : ℚ))
  | [p] => p
  | h => ((h.map Prod.fst).sum / h.length, (h.map Prod.snd).sum / h.length)

/-- `TargetTracker.get_servo_angles(target, max_pan, max_tilt)`. -/
def TargetTracker.get_servo_angles (tk : TargetTracker)
    (target : Option BoundingBox) (max_pan max_tilt : ℚ) : ℚ × ℚ :=
  let tgt := match target with
    | none => tk.current_target
    | some b => some b
  match tgt with
  | none => (0, 0)
  | some _ =>
    let sp := tk.get_smoothed_position
    let error_x := sp.1 - (tk.frame_center_x : ℚ)
    let error_y := sp.2 - (tk.frame_center_y : ℚ)
    let error_x := if |error_x| < tk.deadzone_x then 0 else error_x
    let error_y := if |error_y| < tk.deadzone_y then 0 else error_y
    let norm_x := error_x / ((tk.frame_width : ℚ) / 2)
    let norm_y := error_y / ((tk.frame_height : ℚ) / 2)
    (max (-max_pan) (min max_pan (norm_x * max_pan)),
     max (-max_tilt) (min max_tilt (norm_y * max_tilt)))

/-- `TargetTracker.get_tracking_error`. -/
def TargetTracker.get_tracking_error (tk : TargetTracker) : ℚ × ℚ :=
  match tk.current_target with
  | none => (0, 0)
  | some _ =>
    (tk.get_smoothed_position.1 - (tk.frame_center_x : ℚ),
     tk.get_smoothed_position.2 - (tk.frame_center_y : ℚ))

/-- `TargetTracker.is_target_centered(threshold)`:
`sqrt(error_x² + error_y²) < threshold`, phrased decidably as
`0 < threshold ∧ error_x² + error_y² < threshold²`, which is equivalent
(`sqrt_lt_iff_sq` below). -/
def TargetTracker.is_target_centered (tk : TargetTracker) (threshold : ℚ) : Bool :=
  match tk.current_target with
  | none => false
  | some _ =>
    let e := tk.get_tracking_error
    decide (0 < threshold ∧ e.1 ^ 2 + e.2 ^ 2 < threshold ^ 2)

/-- For `0 ≤ a`, `√a < t` iff `0 < t ∧ a < t²`: the decidable phrasing used
in `TargetTracker.is_target_centered` agrees with the source's
`np.sqrt(...) < threshold`. -/
lemma sqrt_lt_iff_sq (a t : ℚ) :
    Real.sqrt (a : ℝ) < (t : ℝ) ↔ (0 < t ∧ a < t ^ 2) := by
  constructor
  · intro h
    have ht : (0 : ℝ) < t := lt_of_le_of_lt (Real.sqrt_nonneg _) h
    have ht' : (0 : ℚ) < t := by exact_mod_cast ht
    refine ⟨ht', ?_⟩
    have := (Real.sqrt_lt' ht).mp h
    exact_mod_cast this
  · rintro ⟨ht, hlt⟩
    have ht' : (0 : ℝ) < t := by exact_mod_cast ht
    exact (Real.sqrt_lt' ht').mpr (by exact_mod_cast hlt)

/-- `b` is the first element of `l` attaining the maximum of `f`:
everything strictly before `b` has a strictly smaller key and nothing in
`l` has a larger one.  This is the documented tie-break of Python
`max(l, key=f)`. -/
def IsFirstMaxBy {α β : Type*} [LinearOrder β] (f : α → β) (l : List α) (b : α) : Prop :=
  ∃ l₁ l₂, l = l₁ ++ b :: l₂ ∧ (∀ a ∈ l₁, f a < f b) ∧ ∀ a ∈ l, f a ≤ f b

/-- `b` is the first element of `l` attaining the minimum of `f`. -/
def IsFirstMinBy {α β : Type*} [LinearOrder β] (f : α → β) (l : List α) (b : α) : Prop :=
  ∃ l₁ l₂, l = l₁ ++ b :: l₂ ∧ (∀ a ∈ l₁, f b < f a) ∧ ∀ a ∈ l, f b ≤ f a

lemma pyMaxBy_isFirstMax {α β : Type*} [LinearOrder β] (f : α → β) :
    ∀ (ds : List α) (d : α), IsFirstMaxBy f (d :: ds) (pyMaxBy f d ds) := by
  intro ds
  induction ds with
  | nil =>
    intro d
    exact ⟨[], [], rfl, by simp, by simp [pyMaxBy]⟩
  | cons e ds ih =>
    intro d
    by_cases hde : f d < f e
    · have hstep : pyMaxBy f d (e :: ds) = pyMaxBy f e ds := by
        simp [pyMaxBy, if_pos hde]
      rw [hstep]
      obtain ⟨l₁, l₂, hdec, hstrict, hle⟩ := ih e
      have hdr : f d < f (pyMaxBy f e ds) :=
        lt_of_lt_of_le hde (hle e (by simp))
      refine ⟨d :: l₁, l₂, by simp [hdec], ?_, ?_⟩
      · intro a ha
        rcases List.mem_cons.mp ha with h | h
        · exact h ▸ hdr
        · exact hstrict a h
      · intro a ha
        rcases List.mem_cons.mp ha with h | h
        · exact h ▸ le_of_lt hdr
        · exact hle a h
    · have hed : f e ≤ f d := not_lt.mp hde
      have hstep : pyMaxBy f d (e :: ds) = pyMaxBy f d ds := by
        simp [pyMaxBy, if_neg hde]
      rw [hstep]
      obtain ⟨l₁, l₂, hdec, hstrict, hle⟩ := ih d
      have hdr : f d ≤ f (pyMaxBy f d ds) := hle d (by simp)
      set r := pyMaxBy f d ds with hr
      cases l₁ with
      | nil =>
        simp only [List.nil_append] at hdec
        have hd : d = r := (List.cons.injEq _ _ _ _).mp hdec |>.1
        refine ⟨[], e :: ds, by rw [← hd]; simp, by simp, ?_⟩
        intro a ha
        rcases List.mem_cons.mp ha with h | h
        · exact h ▸ hdr
        · rcases List.mem_cons.mp h with h' | h'
          · exact h' ▸ le_trans hed hdr
          · exact hle a (List.mem_cons_of_mem d h')
      | cons x l₁' =>
        simp only [List.cons_append] at hdec
        have hd : d = x := (List.cons.injEq _ _ _ _).mp hdec |>.1
        have hds : ds = l₁' ++ r :: l₂ := (List.cons.injEq _ _ _ _).mp hdec |>.2
        have hdlt : f d < f r := hd ▸ hstrict x (by simp)
        refine ⟨d :: e :: l₁', l₂, by rw [hds]; simp, ?_, ?_⟩
        · intro a ha
          rcases List.mem_cons.mp ha with h | h
          · exact h ▸ hdlt
          · rcases List.mem_cons.mp h with h' | h'
            · exact h' ▸ lt_of_le_of_lt hed hdlt
            · exact hstrict a (hd ▸ List.mem_cons_of_mem x h')
        · intro a ha
          rcases List.mem_cons.mp ha with h | h
          · exact h ▸ hdr
          · rcases List.mem_cons.mp h with h' | h'
            · exact h' ▸ le_trans hed hdr
            · exact hle a (List.mem_cons_of_mem d h')

lemma pyMinBy_isFirstMin {α β : Type*} [LinearOrder β] (f : α → β) :
    ∀ (ds : List α) (d : α), IsFirstMinBy f (d :: ds) (pyMinBy f d ds) := by
  intro ds
  induction ds with
  | nil =>
    intro d
    exact ⟨[], [], rfl, by simp, by simp [pyMinBy]⟩
  | cons e ds ih =>
    intro d
    by_cases hed : f e < f d
    · have hstep : pyMinBy f d (e :: ds) = pyMinBy f e ds := by
        simp [pyMinBy, if_pos hed]
      rw [hstep]
      obtain ⟨l₁, l₂, hdec, hstrict, hle⟩ := ih e
      have hdr : f (pyMinBy f e ds) < f d :=
        lt_of_le_of_lt (hle e (by simp)) hed
      refine ⟨d :: l₁, l₂, by simp [hdec], ?_, ?_⟩
      · intro a ha
        rcases List.mem_cons.mp ha with h | h
        · exact h ▸ hdr
        · exact hstrict a h
      · intro a ha
        rcases List.mem_cons.mp ha with h | h
        · exact h ▸ le_of_lt hdr
        · exact hle a h
    · have hde : f d ≤ f e := not_lt.mp hed
      have hstep : pyMinBy f d (e :: ds) = pyMinBy f d ds := by
        simp [pyMinBy, if_neg hed]
      rw [hstep]
      obtain ⟨l₁, l₂, hdec, hstrict, hle⟩ := ih d
      have hdr : f (pyMinBy f d ds) ≤ f d := hle d (by simp)
      set r := pyMinBy f d ds with hr
      cases l₁ with
      | nil =>
        simp only [List.nil_append] at hdec
        have hd : d = r := (List.cons.injEq _ _ _ _).mp hdec |>.1
        refine ⟨[], e :: ds, by rw [← hd]; simp, by simp, ?_⟩
        intro a ha
        rcases List.mem_cons.mp ha with h | h
        · exact h ▸ hdr
        · rcases List.mem_cons.mp h with h' | h'
          · exact h' ▸ le_trans hdr hde
          · exact hle a (List.mem_cons_of_mem d h')
      | cons x l₁' =>
        simp only [List.cons_append] at hdec
        have hd : d = x := (List.cons.injEq _ _ _ _).mp hdec |>.1
        have hds : ds = l₁' ++ r :: l₂ := (List.cons.injEq _ _ _ _).mp hdec |>.2
        have hdlt : f r < f d := hd ▸ hstrict x (by simp)
        refine ⟨d :: e :: l₁', l₂, by rw [hds]; simp, ?_, ?_⟩
        · intro a ha
          rcases List.mem_cons.mp ha with h | h
          · exact h ▸ hdlt
          · rcases List.mem_cons.mp h with h' | h'
            · exact h' ▸ lt_of_lt_of_le hdlt hde
            · exact hstrict a (hd ▸ List.mem_cons_of_mem x h')
        · intro a ha
          rcases List.mem_cons.mp ha with h | h
          · exact h ▸ hdr
          · rcases List.mem_cons.mp h with h' | h'
            · exact h' ▸ le_trans hdr hde
            · exact hle a (List.mem_cons_of_mem d h')

/-- Selecting the first minimizer of a nonnegative key also selects the
first minimizer of the key's square root — the form the source's
`distance` uses. -/
lemma IsFirstMinBy_sqrt {α : Type*} (f : α → ℚ) (hf : ∀ a, 0 ≤ f a)
    (l : List α) (b : α) (h : IsFirstMinBy f l b) :
    IsFirstMinBy (fun a => Real.sqrt ((f a : ℚ) : ℝ)) l b := by
  obtain ⟨l₁, l₂, hdec, hstrict, hle⟩ := h
  refine ⟨l₁, l₂, hdec, ?_, ?_⟩
  · intro a ha
    exact Real.sqrt_lt_sqrt (by exact_mod_cast hf b) (by exact_mod_cast hstrict a ha)
  · intro a ha
    exact Real.sqrt_le_sqrt (by exact_mod_cast hle a ha)

/-- C5: track-loss handling.  With a held track: the first `update_target`
call with no detections starts the lost-timer and returns the track
unchanged; further empty calls within `max_lost_time` of that moment keep
the tracker state and the returned track unchanged; once the elapsed time
strictly exceeds `max_lost_time` the track becomes `none` and the position
history is emptied; and a non-empty detection list never clears the
track. -/
theorem track_loss_handling (tk : TargetTracker) (t : ℚ) (b : BoundingBox)
    (htgt : tk.current_target = some b) :
    (tk.target_lost_time = 0 →
      tk.update_target t [] = ({ tk with target_lost_time := t }, some b)) ∧
    (tk.target_lost_time ≠ 0 → t - tk.target_lost_time ≤ tk.max_lost_time →
      tk.update_target t [] = (tk, some b)) ∧
    (tk.target_lost_time ≠ 0 → tk.max_lost_time < t - tk.target_lost_time →
      tk.update_target t [] =
        ({ tk with current_target := none, target_lost_time := 0,
                   position_history := [] }, none)) ∧
    (∀ d ds, (tk.update_target t (d :: ds)).1.current_target ≠ none) := by
  refine ⟨?_, ?_, ?_, ?_⟩
  · intro h0
    simp [TargetTracker.update_target, htgt, h0]
  · intro h0 hle
    have hnot : ¬ t - tk.target_lost_time > tk.max_lost_time := not_lt.mpr hle
    simp [TargetTracker.update_target, htgt, h0, hnot]
  · intro h0 hgt
    simp [TargetTracker.update_target, htgt, h0, hgt]
  · intro d ds
    simp [TargetTracker.update_target, htgt]

/-- Witness for C5: a held track, one empty frame at `t = 3` starts the
lost-timer and returns the held track. -/
theorem track_loss_handling_witness :
    TargetTracker.update_target
        { frame_width := 640, frame_height := 480, frame_center_x := 320,
          frame_center_y := 240,
          current_target := some
            { x := 100, y := 100, width := 50, height := 80,
              confidence := 9/10, class_id := 0 },
          target_lost_time := 0, max_lost_time := 2,
          position_history := [(125, 140)], history_size := 5,
          deadzone_x := 20, deadzone_y := 20 } 3 [] =
      ({ frame_width := 640, frame_height := 480, frame_center_x := 320,
         frame_center_y := 240,
         current_target := some
           { x := 100, y := 100, width := 50, height := 80,
             confidence := 9/10, class_id := 0 },
         target_lost_time := 3, max_lost_time := 2,
         position_history := [(125, 140)], history_size := 5,
         deadzone_x := 20, deadzone_y := 20 },
       some { x := 100, y := 100, width := 50, height := 80,
              confidence := 9/10, class_id := 0 }) :=
  (track_loss_handling
    { frame_width := 640, frame_height := 480, frame_center_x := 320,
      frame_center_y := 240,
      current_target := some
        { x := 100, y := 100, width := 50, height := 80,
          confidence := 9/10, class_id := 0 },
      target_lost_time := 0, max_lost_time := 2,
      position_history := [(125, 140)], history_size := 5,
      deadzone_x := 20, deadzone_y := 20 } 3
    { x := 100, y := 100, width := 50, height := 80,
      confidence := 9/10, class_id := 0 } rfl).1 rfl

/-- C6: target selection.  Any `update_target` call with a non-empty
detection list clears the lost-timer; with no prior track the returned
track is the first detection of maximal area; with a prior track of center
`c` it is the first detection whose center has minimal Euclidean distance
to `c` (first = earliest in the input list, the tie-break). -/
theorem target_selection_rule (tk : TargetTracker) (t : ℚ) (d : BoundingBox)
    (ds : List BoundingBox) :
    ((tk.update_target t (d :: ds)).1.target_lost_time = 0) ∧
    (tk.current_target = none →
      ∃ chosen, (tk.update_target t (d :: ds)).2 = some chosen ∧
        IsFirstMaxBy BoundingBox.area (d :: ds) chosen) ∧
    (∀ cur, tk.current_target = some cur →
      ∃ chosen, (tk.update_target t (d :: ds)).2 = some chosen ∧
        IsFirstMinBy
          (fun e => Real.sqrt ((distanceSq e.center cur.center : ℚ) : ℝ))
          (d :: ds) chosen) := by
  refine ⟨?_, ?_, ?_⟩
  · cases htgt : tk.current_target with
    | none => simp [TargetTracker.update_target, htgt]
    | some cur => simp [TargetTracker.update_target, htgt]
  · intro htgt
    refine ⟨pyMaxBy BoundingBox.area d ds, ?_, pyMaxBy_isFirstMax _ ds d⟩
    simp [TargetTracker.update_target, htgt]
  · intro cur htgt
    refine ⟨pyMinBy (fun e => distanceSq e.center cur.center) d ds, ?_, ?_⟩
    · simp [TargetTracker.update_target, htgt]
    · exact IsFirstMinBy_sqrt _ (fun a => by
          have h1 : (0:ℚ) ≤ (a.center.1 - cur.center.1) ^ 2 := sq_nonneg _
          have h2 : (0:ℚ) ≤ (a.center.2 - cur.center.2) ^ 2 := sq_nonneg _
          simpa [distanceSq] using add_nonneg h1 h2)
        _ _ (pyMinBy_isFirstMin _ ds d)

/-- Witness for C6: with no prior track, of two detections the first of
maximal area is selected. -/
theorem target_selection_rule_witness :
    ∃ chosen,
      (TargetTracker.update_target (TargetTracker.init 640 480) 1
          [{ x := 0, y := 0, width := 10, height := 10,
             confidence := 9/10, class_id := 0 },
           { x := 50, y := 50, width := 30, height := 20,
             confidence := 8/10, class_id := 0 }]).2 = some chosen ∧
      IsFirstMaxBy BoundingBox.area
        [{ x := 0, y := 0, width := 10, height := 10,
           confidence := 9/10, class_id := 0 },
         { x := 50, y := 50, width := 30, height := 20,
           confidence := 8/10, class_id := 0 }] chosen :=
  (target_selection_rule (TargetTracker.init 640 480) 1
    { x := 0, y := 0, width := 10, height := 10,
      confidence := 9/10, class_id := 0 }
    [{ x := 50, y := 50, width := 30, height := 20,
       confidence := 8/10, class_id := 0 }]).2.1 rfl

/-- C7: `get_servo_angles` with a track present.  The smoothed position is
the coordinate-wise mean of the history (frame center when empty); the
per-axis error is smoothed minus frame center; an axis whose error is
inside its deadzone yields exactly `0`; otherwise the axis yields the error
normalized by the half frame dimension, scaled by the max angle and clamped
to `[-max, max]`.  Concretely, error_x = 60 on a 640-wide frame with
`max_pan = 90` yields pan = 16.875 = 135/8. -/
theorem servo_angles_formula (tk : TargetTracker) (b : BoundingBox)
    (max_pan max_tilt : ℚ) (hmp : 0 ≤ max_pan) (hmt : 0 ≤ max_tilt)
    (htgt : tk.current_target = some b) :
    (tk.position_history = [] →
      tk.get_smoothed_position =
        ((tk.frame_center_x : ℚ), (tk.frame_center_y : ℚ))) ∧
    (tk.position_history ≠ [] →
      tk.get_smoothed_position =
        ((tk.position_history.map Prod.fst).sum / tk.position_history.length,
         (tk.position_history.map Prod.snd).sum / tk.position_history.length)) ∧
    (|tk.get_smoothed_position.1 - (tk.frame_center_x : ℚ)| < tk.deadzone_x →
      (tk.get_servo_angles none max_pan max_tilt).1 = 0) ∧
    (|tk.get_smoothed_position.2 - (tk.frame_center_y : ℚ)| < tk.deadzone_y →
      (tk.get_servo_angles none max_pan max_tilt).2 = 0) ∧
    (¬ |tk.get_smoothed_position.1 - (tk.frame_center_x : ℚ)| < tk.deadzone_x →
      (tk.get_servo_angles none max_pan max_tilt).1 =
        max (-max_pan) (min max_pan
          ((tk.get_smoothed_position.1 - (tk.frame_center_x : ℚ)) /
            ((tk.frame_width : ℚ) / 2) * max_pan))) ∧
    (¬ |tk.get_smoothed_position.2 - (tk.frame_center_y : ℚ)| < tk.deadzone_y →
      (tk.get_servo_angles none max_pan max_tilt).2 =
        max (-max_tilt) (min max_tilt
          ((tk.get_smoothed_position.2 - (tk.frame_center_y : ℚ)) /
            ((tk.frame_height : ℚ) / 2) * max_tilt))) ∧
    (TargetTracker.get_servo_angles
        { frame_width := 640, frame_height := 480, frame_center_x := 320,
          frame_center_y := 240,
          current_target := some
            { x := 370, y := 230, width := 20, height := 20,
              confidence := 9/10, class_id := 0 },
          target_lost_time := 0, max_lost_time := 2,
          position_history := [(380, 240)], history_size := 5,
          deadzone_x := 20, deadzone_y := 20 } none 90 45).1 = 135/8 := by
  refine ⟨?_, ?_, ?_, ?_, ?_, ?_, ?_⟩
  · intro h
    simp [TargetTracker.get_smoothed_position, h]
  · intro h
    match hh : tk.position_history with
    | [] => exact absurd hh h
    | [p] => simp [TargetTracker.get_smoothed_position, hh]
    | p :: q :: rest => simp [TargetTracker.get_smoothed_position, hh]
  · intro hx
    simp [TargetTracker.get_servo_angles, htgt, hx,
      min_eq_right hmp, max_eq_right (neg_nonpos.mpr hmp)]
  · intro hy
    simp [TargetTracker.get_servo_angles, htgt, hy,
      min_eq_right hmt, max_eq_right (neg_nonpos.mpr hmt)]
  · intro hx
    simp [TargetTracker.get_servo_angles, htgt, hx]
  · intro hy
    simp [TargetTracker.get_servo_angles, htgt, hy]
  · norm_num [TargetTracker.get_servo_angles, TargetTracker.get_smoothed_position, abs]

/-- Witness for C7: the deadzone conjunct at the scenario tracker, whose
tilt error is 0 and hence inside the deadzone: tilt angle is exactly 0. -/
theorem servo_angles_formula_witness :
    (TargetTracker.get_servo_angles
        { frame_width := 640, frame_height := 480, frame_center_x := 320,
          frame_center_y := 240,
          current_target := some
            { x := 370, y := 230, width := 20, height := 20,
              confidence := 9/10, class_id := 0 },
          target_lost_time := 0, max_lost_time := 2,
          position_history := [(380, 240)], history_size := 5,
          deadzone_x := 20, deadzone_y := 20 } none 90 45).2 = 0 :=
  (servo_angles_formula
    { frame_width := 640, frame_height := 480, frame_center_x := 320,
      frame_center_y := 240,
      current_target := some
        { x := 370, y := 230, width := 20, height := 20,
          confidence := 9/10, class_id := 0 },
      target_lost_time := 0, max_lost_time := 2,
      position_history := [(380, 240)], history_size := 5,
      deadzone_x := 20, deadzone_y := 20 }
    { x := 370, y := 230, width := 20, height := 20,
      confidence := 9/10, class_id := 0 } 90 45
    (by norm_num) (by norm_num) rfl).2.2.2.1
    (by norm_num [TargetTracker.get_smoothed_position, abs])

/-- C10: with no current track (and no explicit target argument),
`get_servo_angles` returns `(0, 0)` for every max-angle configuration,
`get_tracking_error` returns `(0, 0)`, and `is_target_centered` is false
for every threshold. -/
theorem no_track_defaults (tk : TargetTracker) (max_pan max_tilt : ℚ)
    (h : tk.current_target = none) :
    tk.get_servo_angles none max_pan max_tilt = (0, 0) ∧
    tk.get_tracking_error = (0, 0) ∧
    ∀ threshold : ℚ, tk.is_target_centered threshold = false := by
  refine ⟨?_, ?_, fun threshold => ?_⟩
  · simp [TargetTracker.get_servo_angles, h]
  · simp [TargetTracker.get_tracking_error, h]
  · simp [TargetTracker.is_target_centered, h]

/-- Witness for C10 at the freshly initialized tracker. -/
theorem no_track_defaults_witness :
    TargetTracker.get_servo_angles (TargetTracker.init 640 480) none 90 45 =
      (0, 0) :=
  (no_track_defaults (TargetTracker.init 640 480) 90 45 rfl).1

/-! ## Serial interface (src/serial/serial_interface.py)

`process_command` accepts either a JSON object line or a plain-text line.
The JSON values the command channel can see are strings and objects, so
`json.loads` is embedded for exactly that subset (no whitespace, escapes or
numbers — none occur on this channel). -/

/-- A JSON value on the command channel: a string or an object. -/
inductive JVal where
  | str : String → JVal
  | obj : List (String × JVal) → JVal

/-- JSON structural characters, as named constants: opening brace. -/
def lbrace : Char := Char.ofNat 123

/-- JSON structural character: closing brace. -/
def rbrace : Char := Char.ofNat 125

/-- JSON structural character: double quote. -/
def dquote : Char := Char.ofNat 34

/-- Read the body of a JSON string literal up to the closing quote;
returns the body and the remaining input. -/
def readStrAux : List Char → Option (List Char × List Char)
  | [] => none
  | c :: cs =>
    if c = dquote then some ([], cs)
    else (readStrAux cs).map fun p => (c :: p.1, p.2)

/-- Read a JSON string literal body (the opening quote already consumed). -/
def readStr (cs : List Char) : Option (String × List Char) :=
  (readStrAux cs).map fun p => (String.mk p.1, p.2)

mutual

/-- Parse one JSON value (string or object).  The fuel argument bounds the
nesting depth; `json.loads` succeeds exactly when this does for channel
inputs. -/
def parseJVal : ℕ → List Char → Option (JVal × List Char)
  | 0, _ => none
  | fuel+1, cs =>
    match cs with
    | [] => none
    | c :: rest =>
      if c = dquote then (readStr rest).map fun p => (JVal.str p.1, p.2)
      else if c = lbrace then
        match rest with
        | [] => none
        | c2 :: r =>
          if c2 = rbrace then some (JVal.obj [], r)
          else (parsePairs fuel (c2 :: r)).map fun p => (JVal.obj p.1, p.2)
      else none

/-- Parse the members of a JSON object after the opening brace, consuming
the closing brace. -/
def parsePairs : ℕ → List Char → Option (List (String × JVal) × List Char)
  | 0, _ => none
  | fuel+1, cs =>
    match cs with
    | [] => none
    | c :: rest =>
      if c = dquote then
        match readStr rest with
        | none => none
        | some (key, r1) =>
          match r1 with
          | ':' :: r2 =>
            match parseJVal fuel r2 with
            | none => none
            | some (v, r3) =>
              match r3 with
              | [] => none
              | c3 :: r4 =>
                if c3 = ',' then
                  match parsePairs fuel r4 with
                  | none => none
                  | some (ps, r5) => some ((key, v) :: ps, r5)
                else if c3 = rbrace then some ([(key, v)], r4)
                else none
          | _ => none
      else none

end

/-- Python `line.split(' ', 1)`: the part before the first space, and the
rest after it when a space exists. -/
def splitFirstSpace : List Char → List Char × Option (List Char)
  | [] => ([], none)
  | c :: cs =>
    if c = ' ' then ([], some cs)
    else
      let p := splitFirstSpace cs
      (c :: p.1, p.2)

/-- The parsing front half of `SerialInterface.process_command`: the
`(command, params)` pair handed to the dispatch table, or `none` when the
line is empty, fails to load as a JSON object, or carries a non-string
`command` (the subsequent dict lookup then misses and the line is
dropped). -/
def process_command_parse (line : String) : Option (String × JVal) :=
  match line.toList with
  | [] => none
  | c :: _ =>
    if c = lbrace then
      match parseJVal line.length line.toList with
      | some (JVal.obj kvs, []) =>
        match kvs.lookup "command" with
        | some (JVal.str cmd) =>
          some (cmd, (kvs.lookup "params").getD (JVal.obj []))
        | _ => none
      | _ => none
    else
      let p := splitFirstSpace line.toList
      some (String.mk (p.1.map Char.toUpper),
        JVal.obj [("args", JVal.str (String.mk (p.2.getD [])))])

/-- Python `str.split()` with no separator: split on whitespace runs,
dropping empty pieces.  `acc` holds the current word reversed. -/
def splitWsAux : List Char → List Char → List (List Char)
  | [], acc => if acc = [] then [] else [acc.reverse]
  | c :: cs, acc =>
    if c.isWhitespace then
      if acc = [] then splitWsAux cs []
      else acc.reverse :: splitWsAux cs []
    else splitWsAux cs (c :: acc)

def splitWs (cs : List Char) : List (List Char) := splitWsAux cs []

/-- Digit run to a natural number. -/
def digitsVal (cs : List Char) : ℕ :=
  cs.foldl (fun acc c => acc * 10 + (c.toNat - Char.toNat '0')) 0

/-- Python `float(s)` on plain decimal strings: optional sign, an integer
part and an optional fractional part, at least one digit in total; `none`
where `float` raises `ValueError`. -/
def parseFloat (s : String) : Option ℚ :=
  let cs := s.toList
  let neg : Bool :=
    match cs with
    | c :: _ => c = '-'
    | [] => false
  let cs2 :=
    match cs with
    | c :: rest => if c = '+' ∨ c = '-' then rest else cs
    | [] => []
  let intPart := cs2.takeWhile Char.isDigit
  let rest := cs2.dropWhile Char.isDigit
  let fracPart :=
    match rest with
    | c :: r => if c = '.' then r.takeWhile Char.isDigit else []
    | [] => []
  let rest2 :=
    match rest with
    | c :: r => if c = '.' then r.dropWhile Char.isDigit else rest
    | [] => []
  if rest2 ≠ [] then none
  else if intPart = [] ∧ fracPart = [] then none
  else
    let ip : ℚ := (digitsVal intPart : ℕ)
    let fp : ℚ := (digitsVal fracPart : ℕ) / 10 ^ fracPart.length
    some ((if neg then -1 else 1) * (ip + fp))

/-- The outcome value of `SerialDebugger.cmd_servo` (its returned string,
with the data it interpolates). -/
inductive ServoCmdResult where
  | moving (pan tilt : ℚ)
  | invalidArgs
  | position (pan tilt : ℚ)
deriving Repr, DecidableEq

/-- `SerialDebugger.cmd_servo(params)` over the servo state: with at least
two whitespace-separated args that parse as floats, issue the move and
report it; with unparsable args report `Invalid args`; with fewer than two
args report the current position.  `none` models a Python exception
escaping the callback (non-dict `params` or non-string `args`), which
`process_command` swallows, dropping the line. -/
def cmd_servo (servo : ServoController) (params : JVal) :
    Option (ServoController × ServoCmdResult) :=
  match params with
  | JVal.str _ => none
  | JVal.obj kvs =>
    match (kvs.lookup "args").getD (JVal.str "") with
    | JVal.obj _ => none
    | JVal.str args =>
      match splitWs args.toList with
      | a0 :: a1 :: _ =>
        match parseFloat (String.mk a0), parseFloat (String.mk a1) with
        | some pan, some tilt =>
          some (servo.set_target_position pan tilt, ServoCmdResult.moving pan tilt)
        | _, _ => some (servo, ServoCmdResult.invalidArgs)
      | _ => some (servo, ServoCmdResult.position servo.current_pan servo.current_tilt)

/-- `SerialInterface.process_command` on a `SerialDebugger` dispatch table,
restricted to the `SERVO` callback: parse the line, dispatch, and return
the updated servo state with the `RESULT` payload `(command, result)`.
`none`: the line is dropped (empty line, parse failure, unregistered
command, or swallowed callback exception). -/
def process_servo_line (servo : ServoController) (line : String) :
    Option (ServoController × String × ServoCmdResult) :=
  match process_command_parse line with
  | none => none
  | some (cmd, params) =>
    if cmd = "SERVO" then
      match cmd_servo servo params with
      | none => none
      | some p => some (p.1, cmd, p.2)
    else none

/-- C8: command parsing equivalence.  The plain-text line `SERVO 45 30`
and the JSON line with command `SERVO` and params `args = "45 30"` parse to
the same `(command, params)` pair, so they dispatch the registered `SERVO`
callback with identical arguments; on any servo state both produce the
identical move `set_target_position 45 30` (clamped to the configured
limits) and the identical `RESULT` payload. -/
theorem command_parsing_equivalence (servo : ServoController) :
    process_command_parse "SERVO 45 30" =
      some ("SERVO", JVal.obj [("args", JVal.str "45 30")]) ∧
    process_command_parse
        "\x7b\"command\":\"SERVO\",\"params\":\x7b\"args\":\"45 30\"\x7d\x7d" =
      some ("SERVO", JVal.obj [("args", JVal.str "45 30")]) ∧
    process_servo_line servo "SERVO 45 30" =
      process_servo_line servo
        "\x7b\"command\":\"SERVO\",\"params\":\x7b\"args\":\"45 30\"\x7d\x7d" ∧
    process_servo_line servo "SERVO 45 30" =
      some (servo.set_target_position 45 30, "SERVO",
        ServoCmdResult.moving 45 30) := by
  have hplain : process_command_parse "SERVO 45 30" =
      some ("SERVO", JVal.obj [("args", JVal.str "45 30")]) := by rfl
  have hjson : process_command_parse
      "\x7b\"command\":\"SERVO\",\"params\":\x7b\"args\":\"45 30\"\x7d\x7d" =
      some ("SERVO", JVal.obj [("args", JVal.str "45 30")]) := by rfl
  have hline : ∀ l₁ l₂ : String,
      process_command_parse l₁ = process_command_parse l₂ →
      process_servo_line servo l₁ = process_servo_line servo l₂ := by
    intro l₁ l₂ h
    unfold process_servo_line
    rw [h]
  refine ⟨hplain, hjson, hline _ _ (hplain.trans hjson.symm), ?_⟩
  unfold process_servo_line
  rw [hplain]
  simp +decide [cmd_servo, splitWs, splitWsAux, parseFloat, digitsVal]

end AutoRedL
